import Mathlib

/-!
Shallow embedding of `mkdocs_drawio_file/plugin.py` (class `DrawioFilePlugin`).

Strings are Lean `String` (a list of characters, as in CPython's `str`).
The XML tree produced by `lxml.etree` is modelled by the mutual inductive
`XElem`/`XForest`; `etree.tostring` is `tostring`; an xpath query `//t[...]`
is a document-order traversal (`XElem.allElems`) filtered by a predicate.
Logging is modelled by a list of `(LogLevel, message)` pairs threaded through
the plugin state; a raised exception is an `Except.error`.
The file system seen by `etree.parse` is an association list from path to
parsed document; a path not in the list makes `etree.parse` raise.
-/

namespace DrawioFile

/-- Concatenation of a list of strings (Python `''.join`). -/
def concatStrs : List String → String
  | [] => ""
  | s :: rest => s ++ concatStrs rest

/-- Predicate `startsWithList p l` is true when `p` is a leading segment of `l`. -/
def startsWithList : List Char → List Char → Bool
  | [], _ => true
  | _ :: _, [] => false
  | p :: ps, c :: cs => p == c && startsWithList ps cs

/-- Predicate `containsList p l` is true when `p` occurs contiguously inside `l`
(Python `p in l`). -/
def containsList (pat : List Char) : List Char → Bool
  | [] => startsWithList pat []
  | c :: cs => startsWithList pat (c :: cs) || containsList pat cs

/-- The characters of `s` lower-cased (Python `s.lower()` viewed as a list). -/
def lowerChars (s : String) : List Char := s.toList.map Char.toLower

/-- Case-insensitive substring test: Python `pat in s.lower()` for an already
lower-case `pat`. -/
def strContainsCI (s pat : String) : Bool := containsList pat.toList (lowerChars s)

/-- Python `str.lstrip(chars)`: drop the longest leading run of characters
belonging to the set `chars`. -/
def py_lstrip (chars : List Char) (s : String) : String :=
  String.mk (s.toList.dropWhile (fun c => chars.contains c))

/-- Python `s.startswith(p)` computed on character lists. -/
def strStartsWith (s p : String) : Bool := startsWithList p.toList s.toList

/-- Python `s.endswith(p)` computed on character lists. -/
def strEndsWith (s p : String) : Bool :=
  startsWithList p.toList.reverse s.toList.reverse

/-- Drop the first `n` characters of a string. -/
def strDrop (s : String) (n : Nat) : String := String.mk (s.toList.drop n)

/-- POSIX `os.path.join` restricted to two components, as CPython implements
it: an absolute second component wins; otherwise insert `/` unless the first
component is empty or already ends in `/`. -/
def os_path_join (a b : String) : String :=
  if strStartsWith b "/" then b
  else if a = "" || strEndsWith a "/" then a ++ b
  else a ++ "/" ++ b

/-- POSIX `os.path.basename`: the part after the last `/`. -/
def os_path_basename (p : String) : String :=
  String.mk ((p.toList.reverse.takeWhile (fun c => c ≠ '/')).reverse)

/-- POSIX `os.path.dirname`: the part before the last `/`, with trailing
slashes removed unless the result would otherwise be empty. -/
def os_path_dirname (p : String) : String :=
  let l := p.toList
  let tailLen := (l.reverse.takeWhile (fun c => c ≠ '/')).length
  let head := l.take (l.length - tailLen)
  let headStripped := (head.reverse.dropWhile (fun c => c = '/')).reverse
  if headStripped.isEmpty && !head.isEmpty then String.mk head
  else String.mk headStripped

/-- First-match association-list lookup (a Python `dict` restricted to the
operations the plugin performs: `in`, `[k]`, and fresh-key insertion). -/
def assocLookup {α : Type} : List (String × α) → String → Option α
  | [], _ => none
  | (k, v) :: rest, key => if k = key then some v else assocLookup rest key

mutual
/-- An XML element as seen through `lxml.etree`: a tag, an attribute list and
child elements.  (Text nodes carry no weight in the plugin's logic and are
not modelled.) -/
inductive XElem : Type where
  | mk (tag : String) (attrib : List (String × String)) (children : XForest)

/-- A sequence of sibling XML elements. -/
inductive XForest : Type where
  | nil : XForest
  | cons : XElem → XForest → XForest
end

def XElem.tag : XElem → String
  | .mk t _ _ => t

def XElem.attrib : XElem → List (String × String)
  | .mk _ a _ => a

def XElem.children : XElem → XForest
  | .mk _ _ c => c

/-- Attribute lookup, `e.get(k)` / `[@k='v']` in lxml. -/
def XElem.attrGet (e : XElem) (k : String) : Option String :=
  assocLookup e.attrib k

/-- Attribute serialization as `lxml.etree.tostring` prints it. -/
def serializeAttrs : List (String × String) → String
  | [] => ""
  | (k, v) :: rest => " " ++ k ++ "=\"" ++ v ++ "\"" ++ serializeAttrs rest

mutual
/-- Serialization as `lxml.etree.tostring` prints an element: self-closing when childless. -/
def XElem.tostringAux : XElem → String
  | .mk t a cs =>
    "<" ++ t ++ serializeAttrs a ++
      (match cs with
       | .nil => "/>"
       | .cons _ _ => ">" ++ XForest.tostringAux cs ++ "</" ++ t ++ ">")

/-- Serialization of a sibling sequence. -/
def XForest.tostringAux : XForest → String
  | .nil => ""
  | .cons e rest => XElem.tostringAux e ++ XForest.tostringAux rest
end

/-- Top-level `etree.tostring(e, encoding=str)`. -/
def tostring (e : XElem) : String := XElem.tostringAux e

mutual
/-- All elements of the document in document (pre-)order, the order an
xpath `//` query returns them in. -/
def XElem.allElems : XElem → List XElem
  | .mk t a cs => .mk t a cs :: XForest.allElems cs

/-- All elements of a sibling sequence in document order. -/
def XForest.allElems : XForest → List XElem
  | .nil => []
  | .cons e rest => XElem.allElems e ++ XForest.allElems rest
end

/-- An xpath query `//·` with a node test: every element of the document,
in document order, satisfying the predicate. -/
def xpathAll (doc : XElem) (p : XElem → Bool) : List XElem :=
  (XElem.allElems doc).filter p

/-- Node test of the query `//mxfile`. -/
def isMxfile (e : XElem) : Bool := e.tag == "mxfile"

/-- Node test of the query `//diagram[@name='a']`. -/
def isSheetNamed (a : String) (e : XElem) : Bool :=
  e.tag == "diagram" && e.attrGet "name" == some a

/-- Severity of a `self.log` call. -/
inductive LogLevel : Type where
  | warning : LogLevel
  | error : LogLevel
deriving DecidableEq

/-- The mutable state of a `DrawioFilePlugin` instance during one build run:
`self.parsed_diagrams_cache`, a counter of `etree.parse` invocations (file
reads), and the log messages emitted so far. -/
structure PluginState where
  cache : List (String × String)
  reads : Nat
  logs : List (LogLevel × String)

/-- The files `etree.parse` can successfully read and parse, as an
association list from path to parsed document; any other path raises. -/
abbrev FS : Type := List (String × XElem)

/-- The plugin configuration declared by `config_scheme`:
`file_extension`, default `".drawio"`. -/
structure PluginConfig where
  file_extension : String

/-- The two path fields of `page.file` that `on_post_page` and
`_get_relative_viewer_path` consult. -/
structure PageFile where
  abs_src_path : String
  dest_path : String

/-- Field `self.viewer_script_path` as computed by `_get_local_viewer_script`:
`os.path.join(package_dir, 'static', 'viewer-static.min.js')`. -/
def viewer_script_path (package_dir : String) : String :=
  os_path_join (os_path_join package_dir "static") "viewer-static.min.js"

/-- Method `DrawioFilePlugin._get_relative_viewer_path`: computes the page's
destination directory, then returns `os.path.join('static', viewer_filename)`
(the computed directory is never used). -/
def _get_relative_viewer_path (package_dir : String) (dest_path : String) : String :=
  let _current_page_dir := os_path_dirname dest_path
  let viewer_filename := os_path_basename (viewer_script_path package_dir)
  os_path_join "static" viewer_filename

/-- Method `DrawioFilePlugin.parse_diagram`: with no `alt`, serialize the whole
document; otherwise take the first element of `//mxfile` (an empty result
raises `IndexError`, caught by the handler which logs an error and serializes
the original document), query `//diagram[@name=alt]`, and on exactly one hit
serialize a fresh element with `mxfile`'s tag and attributes holding the hit
as sole child, on zero or several hits log a warning and serialize `mxfile`
itself. -/
def parse_diagram (data : XElem) (alt : Option String) : String × List (LogLevel × String) :=
  match alt with
  | none => (tostring data, [])
  | some a =>
    match xpathAll data isMxfile with
    | [] =>
      (tostring data, [(LogLevel.error, "Error parsing diagram: list index out of range")])
    | mxfile :: _ =>
      match xpathAll data (isSheetNamed a) with
      | [p] =>
        (tostring (XElem.mk mxfile.tag mxfile.attrib (XForest.cons p XForest.nil)), [])
      | [] =>
        (tostring mxfile, [(LogLevel.warning, "No page found for name " ++ a)])
      | _ :: _ :: _ =>
        (tostring mxfile, [(LogLevel.warning, "Multiple pages found for name " ++ a)])

/-- The fixed translation table `escape_map` of `escape_diagram`; characters
outside the table map to themselves. -/
def escape_map (c : Char) : String :=
  if c = '&' then "&amp;"
  else if c = '<' then "&lt;"
  else if c = '>' then "&gt;"
  else if c = '"' then "&quot;"
  else if c = '\'' then "&apos;"
  else String.singleton c

/-- Python `s.replace('\n', '')`: delete every newline character. -/
def removeNewlines (s : String) : String :=
  String.mk (s.toList.filter (fun c => c ≠ '\n'))

/-- Method `DrawioFilePlugin.escape_diagram`:
`''.join(escape_map.get(char, char) for char in str_xml).replace('\n', '')`. -/
def escape_diagram (str_xml : String) : String :=
  removeNewlines (concatStrs (str_xml.toList.map escape_map))

/-- Method `DrawioFilePlugin._create_diagram_html`: the fixed widget template with
the escaped XML substituted for `$xml_drawio`. -/
def _create_diagram_html (escaped_xml : String) : String :=
  "<div class=\"mxgraph\" style=\"max-width:100%;border:1px solid transparent;\" " ++
    "data-mxgraph=\"\x7b&quot;highlight&quot;:&quot;#0000ff&quot;,&quot;nav&quot;:true," ++
    "&quot;resize&quot;:true,&quot;toolbar&quot;:&quot;zoom layers tags lightbox&quot;," ++
    "&quot;edit&quot;:&quot;_blank&quot;,&quot;xml&quot;:&quot;" ++ escaped_xml ++
    "&quot;\x7d\"></div>"

/-- The path computation at the top of `substitute_image`:
`src.lstrip('../')` followed by `os.path.join(path, src)`. -/
def resolve (path src : String) : String :=
  os_path_join path (py_lstrip ("../".toList) src)

/-- Modelled from the spec for comparison with `resolve` (claim C2): strip
exactly one leading parent-directory marker `../` from the reference if
present, otherwise leave the reference unchanged, then join with the page's
source directory. -/
def resolve_spec (path src : String) : String :=
  os_path_join path (if strStartsWith src "../" then strDrop src 3 else src)

/-- Method `DrawioFilePlugin.substitute_image`: resolve the path; on a cache hit
escape and wrap the cached serialized diagram without touching the file; on a
miss call `etree.parse` (counted in `reads`; a missing file raises, which the
`except` clause logs and re-raises), run `parse_diagram`, cache its result
keyed by the resolved path alone, then escape and wrap it. -/
def substitute_image (fs : FS) (st : PluginState) (path src : String) (alt : Option String) :
    Except String String × PluginState :=
  let full_path := resolve path src
  match assocLookup st.cache full_path with
  | some diagram =>
    (Except.ok (_create_diagram_html (escape_diagram diagram)), st)
  | none =>
    match assocLookup fs full_path with
    | none =>
      let msg := "failed to load " ++ full_path
      (Except.error msg,
       { st with
          reads := st.reads + 1,
          logs := st.logs ++
            [(LogLevel.error,
              "Error substituting image " ++ py_lstrip ("../".toList) src ++ ": " ++ msg)] })
    | some doc =>
      let pr := parse_diagram doc alt
      (Except.ok (_create_diagram_html (escape_diagram pr.1)),
       { cache := (full_path, pr.1) :: st.cache,
         reads := st.reads + 1,
         logs := st.logs ++ pr.2 })

/-- A node of the rendered page as BeautifulSoup exposes it to the plugin:
an `img` (with `src` and optional `alt`), a `script` tag, arbitrary other
markup kept verbatim, or an already-substituted raw HTML fragment. -/
inductive Node : Type where
  | img (src : String) (alt : Option String)
  | script (src : String)
  | text (s : String)
  | raw (html : String)
deriving DecidableEq

/-- The element test of `soup.findAll('img', src=re.compile(r'.*\.drawio',
re.IGNORECASE))`: an `img` whose `src` contains `.drawio` case-insensitively. -/
def isDiagramImg : Node → Bool
  | .img src _ => strContainsCI src ".drawio"
  | _ => false

/-- Serialization of one node back to HTML text (`str(soup)` restricted to
the node shapes the model tracks). -/
def renderNode : Node → String
  | .img src alt =>
    "<img src=\"" ++ src ++ "\"" ++
      (match alt with
       | some a => " alt=\"" ++ a ++ "\""
       | none => "") ++ "/>"
  | .script src => "<script src=\"" ++ src ++ "\"></script>"
  | .text s => s
  | .raw h => h

/-- A parsed page: whether the document has a `body` element (`html.parser`
does not invent one), and the node sequence. -/
structure HtmlPage where
  hasBody : Bool
  nodes : List Node

/-- The page's HTML text: `str(soup)`. -/
def render (p : HtmlPage) : String :=
  if p.hasBody then "<body>" ++ concatStrs (p.nodes.map renderNode) ++ "</body>"
  else concatStrs (p.nodes.map renderNode)

/-- The `except` clause of the substitution loop: log a warning naming the
failing reference, keep the rest of the state. -/
def warnFailState (st : PluginState) (src e : String) : PluginState :=
  { st with
     logs := st.logs ++
       [(LogLevel.warning, "Failed to process diagram " ++ src ++ ": " ++ e)] }

/-- The `for diagram in diagrams` loop of `on_post_page`: each matching `img`
is independently substituted; a successful substitution replaces the node
with the returned fragment, a raised exception is caught, logged as a warning
naming the reference, and leaves that node unchanged. -/
def processNodes (fs : FS) (path : String) : List Node → PluginState → List Node × PluginState
  | [], st => ([], st)
  | n :: rest, st =>
    match n with
    | Node.img src alt =>
      if strContainsCI src ".drawio" then
        match substitute_image fs st path src alt with
        | (Except.ok h, st1) =>
          let r := processNodes fs path rest st1
          (Node.raw h :: r.1, r.2)
        | (Except.error e, st1) =>
          let r := processNodes fs path rest (warnFailState st1 src e)
          (Node.img src alt :: r.1, r.2)
      else
        let r := processNodes fs path rest st
        (Node.img src alt :: r.1, r.2)
    | other =>
      let r := processNodes fs path rest st
      (other :: r.1, r.2)

/-- The body of `on_post_page`'s `try` block after the raw-string check: find
the diagram images; if none, return the page as is; otherwise append the
viewer `script` tag to `soup.body` (raising `AttributeError` when the page
has no body, before any substitution happens) and run the substitution loop
with the page's source directory. -/
def transformPage (fs : FS) (package_dir : String) (page : HtmlPage) (file : PageFile)
    (st : PluginState) : Except String (HtmlPage × PluginState) :=
  if (page.nodes.filter isDiagramImg).isEmpty then Except.ok (page, st)
  else if !page.hasBody then
    Except.error "NoneType object has no attribute append"
  else
    let lib := Node.script (_get_relative_viewer_path package_dir file.dest_path)
    let path := os_path_dirname file.abs_src_path
    let r := processNodes fs path page.nodes st
    Except.ok ({ hasBody := true, nodes := r.1 ++ [lib] }, r.2)

/-- Method `DrawioFilePlugin.on_post_page`: return the content unchanged when its
lower-cased text does not contain the hard-coded `".drawio"` (the configured
`file_extension` is never consulted); otherwise run the transformation, and
on any escaping exception log an error and return the original content. -/
def on_post_page (_cfg : PluginConfig) (fs : FS) (package_dir : String)
    (page : HtmlPage) (file : PageFile) (st : PluginState) : String × PluginState :=
  let output_content := render page
  if !strContainsCI output_content ".drawio" then (output_content, st)
  else
    match transformPage fs package_dir page file st with
    | Except.ok (p2, st2) => (render p2, st2)
    | Except.error e =>
      (output_content,
       { st with logs := st.logs ++ [(LogLevel.error, "Error processing page content: " ++ e)] })

/-! Concrete fixtures used by the witnesses and counterexamples. -/

/-- A sheet named `A`. -/
def sheetA : XElem := XElem.mk "diagram" [("name", "A")] XForest.nil

/-- A sheet named `B`. -/
def sheetB : XElem := XElem.mk "diagram" [("name", "B")] XForest.nil

/-- A two-sheet diagram file. -/
def exDoc2 : XElem :=
  XElem.mk "mxfile" [("host", "app")] (XForest.cons sheetA (XForest.cons sheetB XForest.nil))

/-- A one-sheet diagram file. -/
def exDoc1 : XElem := XElem.mk "mxfile" [] (XForest.cons sheetA XForest.nil)

/-- A small file system. -/
def exFs : FS :=
  [("docs/d.drawio", exDoc2), ("docs/ok1.drawio", exDoc1), ("docs/ok2.drawio", exDoc1),
   ("docs/a.drawio", exDoc1)]

/-- A fresh plugin state. -/
def st0 : PluginState := { cache := [], reads := 0, logs := [] }

/-- The page-file record of a page under `docs/`. -/
def exFile : PageFile := { abs_src_path := "docs/page.md", dest_path := "page/index.html" }

/-- A page with a body and a single diagram image. -/
def exPage : HtmlPage := { hasBody := true, nodes := [Node.img "a.drawio" none] }

/-- The same content without a body element. -/
def exPageNoBody : HtmlPage := { hasBody := false, nodes := [Node.img "a.drawio" none] }

/-- A bodyless page with some text and a mixed-case diagram reference. -/
def exPageNoBody2 : HtmlPage :=
  { hasBody := false, nodes := [Node.text "intro", Node.img "x/Y.DRAWIO" (some "S")] }

/-! Helper lemmas about the string primitives. -/

theorem toList_append (s t : String) : (s ++ t).toList = s.toList ++ t.toList := by
  cases s
  cases t
  rfl

theorem strMk_append (a b : List Char) :
    String.mk a ++ String.mk b = String.mk (a ++ b) := rfl

theorem concatStrs_append (a b : List String) :
    concatStrs (a ++ b) = concatStrs a ++ concatStrs b := by
  induction a with
  | nil => simp [concatStrs, String.empty_append]
  | cons s rest ih => simp [concatStrs, ih, String.append_assoc]

theorem removeNewlines_append (s t : String) :
    removeNewlines (s ++ t) = removeNewlines s ++ removeNewlines t := by
  simp [removeNewlines, toList_append, List.filter_append, strMk_append]

theorem escape_diagram_append (s t : String) :
    escape_diagram (s ++ t) = escape_diagram s ++ escape_diagram t := by
  simp [escape_diagram, toList_append, List.map_append, concatStrs_append,
    removeNewlines_append]

theorem escape_diagram_no_newline (s : String) : '\n' ∉ (escape_diagram s).toList := by
  intro h
  simp only [escape_diagram, removeNewlines, String.toList, List.mem_filter,
    decide_eq_true_eq] at h
  exact h.2 rfl

theorem escape_map_other (c : Char)
    (h : c ∉ (['&', '<', '>', '"', '\''] : List Char)) :
    escape_map c = String.singleton c := by
  simp only [List.mem_cons, List.not_mem_nil, or_false, not_or] at h
  obtain ⟨h1, h2, h3, h4, h5⟩ := h
  simp [escape_map, h1, h2, h3, h4, h5]

theorem escape_diagram_singleton (c : Char)
    (h : c ∉ (['&', '<', '>', '"', '\'', '\n'] : List Char)) :
    escape_diagram (String.singleton c) = String.singleton c := by
  have hc : c ∉ (['&', '<', '>', '"', '\''] : List Char) := by
    intro hm
    apply h
    simp only [List.mem_cons, List.not_mem_nil, or_false] at hm ⊢
    tauto
  have hn : c ≠ '\n' := by
    intro he
    exact h (by simp [he])
  have h1 : (String.singleton c).toList = [c] := rfl
  simp only [escape_diagram, h1, List.map_cons, List.map_nil, concatStrs,
    escape_map_other c hc, String.append_empty, removeNewlines, h1]
  simp only [List.filter, hn, decide_not, decide_eq_true_eq]
  simp [List.filter, hn]
  rfl

/-! Helper lemmas about substring containment. -/

theorem containsList_nil (l : List Char) : containsList [] l = true := by
  cases l <;> simp [containsList, startsWithList]

theorem startsWithList_append (p l m : List Char) (h : startsWithList p l = true) :
    startsWithList p (l ++ m) = true := by
  induction p generalizing l with
  | nil => simp [startsWithList]
  | cons c cs ih =>
    cases l with
    | nil => simp [startsWithList] at h
    | cons d ds =>
      simp only [startsWithList, Bool.and_eq_true, beq_iff_eq] at h
      simp only [List.cons_append, startsWithList, Bool.and_eq_true, beq_iff_eq]
      exact ⟨h.1, ih ds h.2⟩

theorem containsList_append_right (p a b : List Char) (h : containsList p b = true) :
    containsList p (a ++ b) = true := by
  induction a with
  | nil => simpa using h
  | cons c cs ih =>
    simp only [List.cons_append, containsList, Bool.or_eq_true]
    exact Or.inr ih

theorem containsList_append_left (p a b : List Char) (h : containsList p a = true) :
    containsList p (a ++ b) = true := by
  induction a with
  | nil =>
    cases p with
    | nil => exact containsList_nil b
    | cons q qs => simp [containsList, startsWithList] at h
  | cons c cs ih =>
    simp only [containsList, Bool.or_eq_true] at h
    simp only [List.cons_append, containsList, Bool.or_eq_true]
    rcases h with h | h
    · exact Or.inl (by simpa using startsWithList_append p (c :: cs) b (by simpa using h))
    · exact Or.inr (ih h)

theorem lowerChars_append (s t : String) :
    lowerChars (s ++ t) = lowerChars s ++ lowerChars t := by
  simp [lowerChars, toList_append]

theorem strContainsCI_append_left (s t pat : String)
    (h : strContainsCI s pat = true) : strContainsCI (s ++ t) pat = true := by
  simp only [strContainsCI, lowerChars_append]
  exact containsList_append_left _ _ _ h

theorem strContainsCI_append_right (s t pat : String)
    (h : strContainsCI t pat = true) : strContainsCI (s ++ t) pat = true := by
  simp only [strContainsCI, lowerChars_append]
  exact containsList_append_right _ _ _ h

/-- C2: the reference `../../a.drawio` exposes the divergence between the
code's `src.lstrip('../')` (a character-set strip, which removes every
leading `.` and `/` and resolves to `docs/a.drawio`) and the claimed removal
of exactly one leading `../` marker (which would resolve to
`docs/../a.drawio`). -/
theorem C2_lstrip_is_charset_strip :
    resolve "docs" "../../a.drawio" = "docs/a.drawio" ∧
    resolve_spec "docs" "../../a.drawio" = "docs/../a.drawio" ∧
    resolve "docs" "../../a.drawio" ≠ resolve_spec "docs" "../../a.drawio" := by
  refine ⟨by decide, by decide, by decide⟩

/-- C6: with `file_extension` configured as `".dio"`, a page whose HTML
contains no occurrence of `".dio"` is nevertheless transformed, because
`on_post_page` matches the hard-coded `".drawio"` and never consults the
configuration. -/
theorem C6_configured_extension_ignored :
    strContainsCI (render exPage) ".dio" = false ∧
    (on_post_page { file_extension := ".dio" } exFs "/pkg" exPage exFile st0).1 ≠
      render exPage := by
  refine ⟨by decide, by decide⟩

/-- C7 counterexample: escaping `<a & b>'` yields `&lt;a &amp; b&gt;&apos;`
(the `>` is escaped before the trailing apostrophe), not the claimed
`&lt;a &amp; b&apos;&gt;`. -/
theorem C7_counterexample :
    escape_diagram "<a & b>'" ≠ "&lt;a &amp; b&apos;&gt;" := by decide

/-- C7 (amended): escaping replaces exactly the five characters with their
entities via the fixed table, is applied character by character (it is a
homomorphism for concatenation and the identity on any single non-special,
non-newline character), removes every newline, and on the input `<a & b>'`
yields `&lt;a &amp; b&gt;&apos;`. -/
theorem C7_escape_fixed_table :
    escape_diagram "<a & b>'" = "&lt;a &amp; b&gt;&apos;" ∧
    (escape_diagram "&" = "&amp;" ∧ escape_diagram "<" = "&lt;" ∧
     escape_diagram ">" = "&gt;" ∧ escape_diagram "\"" = "&quot;" ∧
     escape_diagram "'" = "&apos;" ∧ escape_diagram "\n" = "") ∧
    (∀ s t : String, escape_diagram (s ++ t) = escape_diagram s ++ escape_diagram t) ∧
    (∀ c : Char, c ∉ (['&', '<', '>', '"', '\'', '\n'] : List Char) →
      escape_diagram (String.singleton c) = String.singleton c) ∧
    (∀ s : String, '\n' ∉ (escape_diagram s).toList) := by
  refine ⟨by decide, ⟨by decide, by decide, by decide, by decide, by decide, by decide⟩,
    escape_diagram_append, escape_diagram_singleton, escape_diagram_no_newline⟩

/-- C7 witness: the amended theorem applied at concrete inputs. -/
theorem C7_escape_fixed_table_witness :
    escape_diagram ("<a" ++ " & b>'") = escape_diagram "<a" ++ escape_diagram " & b>'" ∧
    escape_diagram (String.singleton 'x') = String.singleton 'x' ∧
    '\n' ∉ (escape_diagram "a\nb").toList :=
  ⟨C7_escape_fixed_table.2.2.1 "<a" " & b>'",
   C7_escape_fixed_table.2.2.2.1 'x' (by decide),
   C7_escape_fixed_table.2.2.2.2 "a\nb"⟩

/-- C8: the viewer `script` src is the same fixed `static/viewer-static.min.js`
for a top-level page and for a deeply nested page; `_get_relative_viewer_path`
computes the page's destination directory and then discards it. -/
theorem C8_viewer_path_not_page_relative :
    _get_relative_viewer_path "/pkg" "index.html" = "static/viewer-static.min.js" ∧
    _get_relative_viewer_path "/pkg" "deep/nested/sub/index.html" =
      "static/viewer-static.min.js" := by
  refine ⟨by decide, by decide⟩

/-- C9: when the document has no `mxfile` element the `[0]` subscript raises,
the handler inside `parse_diagram` catches it, logs an error, and the
serialization of the original unmodified document is returned to the caller
instead of an exception propagating. -/
theorem C9_extractor_catches_and_falls_back (data : XElem) (a : String)
    (h : xpathAll data isMxfile = []) :
    parse_diagram data (some a) =
      (tostring data,
       [(LogLevel.error, "Error parsing diagram: list index out of range")]) := by
  simp [parse_diagram, h]

/-- C9 witness: a document whose root is `svg` (no `mxfile` anywhere). -/
theorem C9_extractor_catches_and_falls_back_witness :
    parse_diagram (XElem.mk "svg" [] XForest.nil) (some "A") =
      (tostring (XElem.mk "svg" [] XForest.nil),
       [(LogLevel.error, "Error parsing diagram: list index out of range")]) :=
  C9_extractor_catches_and_falls_back (XElem.mk "svg" [] XForest.nil) "A" rfl

/-- C3: once an `mxfile` element is found, sheet selection is decided by the
number of `diagram` elements named `a`: one hit serializes a fresh root with
the `mxfile` tag and attributes and the hit as sole child; zero hits log a
"not found" warning and serialize the whole `mxfile`; several hits log an
"ambiguous" warning and serialize the whole `mxfile` — in all three cases a
value is returned, never an exception. -/
theorem C3_sheet_selection (data : XElem) (a : String) (mx : XElem)
    (rest : List XElem) (hmx : xpathAll data isMxfile = mx :: rest) :
    parse_diagram data (some a) =
      match xpathAll data (isSheetNamed a) with
      | [p] => (tostring (XElem.mk mx.tag mx.attrib (XForest.cons p XForest.nil)), [])
      | [] => (tostring mx, [(LogLevel.warning, "No page found for name " ++ a)])
      | _ :: _ :: _ =>
        (tostring mx, [(LogLevel.warning, "Multiple pages found for name " ++ a)]) := by
  simp [parse_diagram, hmx]

/-- C3 witness: the two-sheet document, requesting sheet `A`. -/
theorem C3_sheet_selection_witness :
    parse_diagram exDoc2 (some "A") =
      match xpathAll exDoc2 (isSheetNamed "A") with
      | [p] =>
        (tostring (XElem.mk exDoc2.tag exDoc2.attrib (XForest.cons p XForest.nil)), [])
      | [] => (tostring exDoc2, [(LogLevel.warning, "No page found for name " ++ "A")])
      | _ :: _ :: _ =>
        (tostring exDoc2,
         [(LogLevel.warning, "Multiple pages found for name " ++ "A")]) :=
  C3_sheet_selection exDoc2 "A" exDoc2 [] rfl

/-- C5: whenever the transformation attempt raises, `on_post_page` catches at
page level, logs an error naming the exception, and returns the original
rendered content with the rest of the state (cache, read counter) untouched. -/
theorem C5_page_level_catch (cfg : PluginConfig) (fs : FS) (package_dir : String)
    (page : HtmlPage) (file : PageFile) (st : PluginState) (e : String)
    (hext : strContainsCI (render page) ".drawio" = true)
    (herr : transformPage fs package_dir page file st = Except.error e) :
    on_post_page cfg fs package_dir page file st =
      (render page,
       { st with
          logs := st.logs ++ [(LogLevel.error, "Error processing page content: " ++ e)] }) := by
  simp [on_post_page, hext, herr]

/-- C5 witness: a bodyless page whose script insertion raises. -/
theorem C5_page_level_catch_witness :
    on_post_page { file_extension := ".drawio" } exFs "/pkg" exPageNoBody2 exFile st0 =
      (render exPageNoBody2,
       { st0 with
          logs := st0.logs ++
            [(LogLevel.error,
              "Error processing page content: NoneType object has no attribute append")] }) :=
  C5_page_level_catch { file_extension := ".drawio" } exFs "/pkg" exPageNoBody2 exFile st0
    "NoneType object has no attribute append" (by decide) rfl

/-- C1: on a cache miss `substitute_image` reads the file once and stores the
post-sheet-selection serialization keyed by the resolved path alone; any later
call resolving to the same path — whatever sheet name it carries — performs no
further read, leaves the state unchanged, and returns the widget built from
the first call's cached content. -/
theorem C1_cache_keyed_on_path_only (fs : FS) (st : PluginState)
    (path src src2 : String) (alt1 alt2 : Option String) (doc : XElem)
    (hmiss : assocLookup st.cache (resolve path src) = none)
    (hfile : assocLookup fs (resolve path src) = some doc)
    (hsame : resolve path src2 = resolve path src) :
    (substitute_image fs st path src alt1).2.reads = st.reads + 1 ∧
    (substitute_image fs st path src alt1).2.cache =
      (resolve path src, (parse_diagram doc alt1).1) :: st.cache ∧
    (substitute_image fs ((substitute_image fs st path src alt1).2) path src2 alt2).2 =
      (substitute_image fs st path src alt1).2 ∧
    (substitute_image fs ((substitute_image fs st path src alt1).2) path src2 alt2).1 =
      Except.ok (_create_diagram_html (escape_diagram (parse_diagram doc alt1).1)) := by
  have h1 : substitute_image fs st path src alt1 =
      (Except.ok (_create_diagram_html (escape_diagram (parse_diagram doc alt1).1)),
       { cache := (resolve path src, (parse_diagram doc alt1).1) :: st.cache,
         reads := st.reads + 1,
         logs := st.logs ++ (parse_diagram doc alt1).2 }) := by
    simp [substitute_image, hmiss, hfile]
  have h2 : substitute_image fs ((substitute_image fs st path src alt1).2) path src2 alt2 =
      (Except.ok (_create_diagram_html (escape_diagram (parse_diagram doc alt1).1)),
       (substitute_image fs st path src alt1).2) := by
    rw [h1]
    simp [substitute_image, hsame, assocLookup]
  rw [h1] at h2 ⊢
  exact ⟨rfl, rfl, by rw [h2], by rw [h2]⟩

/-- C1 witness: the two-sheet file requested first with sheet `A`, then with
sheet `B`; the second call returns the widget built from sheet `A`'s content. -/
theorem C1_cache_keyed_on_path_only_witness :
    (substitute_image exFs st0 "docs" "d.drawio" (some "A")).2.reads = st0.reads + 1 ∧
    (substitute_image exFs st0 "docs" "d.drawio" (some "A")).2.cache =
      ("docs/d.drawio", (parse_diagram exDoc2 (some "A")).1) :: st0.cache ∧
    (substitute_image exFs
        ((substitute_image exFs st0 "docs" "d.drawio" (some "A")).2)
        "docs" "d.drawio" (some "B")).2 =
      (substitute_image exFs st0 "docs" "d.drawio" (some "A")).2 ∧
    (substitute_image exFs
        ((substitute_image exFs st0 "docs" "d.drawio" (some "A")).2)
        "docs" "d.drawio" (some "B")).1 =
      Except.ok (_create_diagram_html (escape_diagram (parse_diagram exDoc2 (some "A")).1)) :=
  C1_cache_keyed_on_path_only exFs st0 "docs" "d.drawio" "d.drawio"
    (some "A") (some "B") exDoc2 rfl rfl rfl

/-! Helper lemmas about the substitution loop. -/

theorem processNodes_append (fs : FS) (path : String) (xs ys : List Node)
    (st : PluginState) :
    processNodes fs path (xs ++ ys) st =
      ((processNodes fs path xs st).1 ++
        (processNodes fs path ys (processNodes fs path xs st).2).1,
       (processNodes fs path ys (processNodes fs path xs st).2).2) := by
  induction xs generalizing st with
  | nil => simp [processNodes]
  | cons n rest ih =>
    cases n with
    | img src alt =>
      by_cases h : strContainsCI src ".drawio" = true
      · rcases hsub : substitute_image fs st path src alt with ⟨r, st1⟩
        cases r with
        | ok v => simp [processNodes, h, hsub, ih]
        | error e => simp [processNodes, h, hsub, ih]
      · simp [processNodes, h, ih]
    | script s => simp [processNodes, ih]
    | text s => simp [processNodes, ih]
    | raw html => simp [processNodes, ih]

theorem substitute_image_logs_mono (fs : FS) (st : PluginState) (path src : String)
    (alt : Option String) :
    st.logs <+: (substitute_image fs st path src alt).2.logs := by
  rcases h1 : assocLookup st.cache (resolve path src) with _ | d
  · rcases h2 : assocLookup fs (resolve path src) with _ | doc
    · simp [substitute_image, h1, h2, List.prefix_append]
    · simp [substitute_image, h1, h2, List.prefix_append]
  · simp [substitute_image, h1]

theorem processNodes_logs_mono (fs : FS) (path : String) (ns : List Node) :
    ∀ st : PluginState, st.logs <+: (processNodes fs path ns st).2.logs := by
  induction ns with
  | nil => intro st; simp [processNodes]
  | cons n rest ih =>
    intro st
    cases n with
    | img src alt =>
      by_cases h : strContainsCI src ".drawio" = true
      · rcases hsub : substitute_image fs st path src alt with ⟨r, st1⟩
        have hpre : st.logs <+: st1.logs := by
          have hm := substitute_image_logs_mono fs st path src alt
          rw [hsub] at hm
          exact hm
        cases r with
        | ok v =>
          have hred : (processNodes fs path (Node.img src alt :: rest) st).2 =
              (processNodes fs path rest st1).2 := by
            simp [processNodes, h, hsub]
          rw [hred]
          exact hpre.trans (ih st1)
        | error e =>
          have hred : (processNodes fs path (Node.img src alt :: rest) st).2 =
              (processNodes fs path rest (warnFailState st1 src e)).2 := by
            simp [processNodes, h, hsub]
          rw [hred]
          exact hpre.trans
            ((List.prefix_append st1.logs _).trans (ih (warnFailState st1 src e)))
      · have hred : (processNodes fs path (Node.img src alt :: rest) st).2 =
            (processNodes fs path rest st).2 := by
          simp [processNodes, h]
        rw [hred]
        exact ih st
    | script s =>
      have hred : (processNodes fs path (Node.script s :: rest) st).2 =
          (processNodes fs path rest st).2 := by simp [processNodes]
      rw [hred]
      exact ih st
    | text s =>
      have hred : (processNodes fs path (Node.text s :: rest) st).2 =
          (processNodes fs path rest st).2 := by simp [processNodes]
      rw [hred]
      exact ih st
    | raw html =>
      have hred : (processNodes fs path (Node.raw html :: rest) st).2 =
          (processNodes fs path rest st).2 := by simp [processNodes]
      rw [hred]
      exact ih st

theorem processNodes_logs_mem (fs : FS) (path : String) (ns : List Node)
    (st : PluginState) (x : LogLevel × String) (hx : x ∈ st.logs) :
    x ∈ (processNodes fs path ns st).2.logs :=
  (processNodes_logs_mono fs path ns st).subset hx

/-- C4: in a node list with a failing diagram reference between two groups of
nodes, the loop substitutes (or keeps) every node of the first group, logs a
warning naming the failing reference, leaves that one `img` node exactly as it
was, and still processes every node of the second group. -/
theorem C4_per_reference_isolation (fs : FS) (path : String) (xs ys : List Node)
    (src : String) (alt : Option String) (st : PluginState) (e : String)
    (hext : strContainsCI src ".drawio" = true)
    (hfail : (substitute_image fs (processNodes fs path xs st).2 path src alt).1 =
      Except.error e) :
    (processNodes fs path (xs ++ Node.img src alt :: ys) st).1 =
      (processNodes fs path xs st).1 ++
        Node.img src alt ::
          (processNodes fs path ys
            (warnFailState
              (substitute_image fs (processNodes fs path xs st).2 path src alt).2
              src e)).1 ∧
    (LogLevel.warning, "Failed to process diagram " ++ src ++ ": " ++ e) ∈
      (processNodes fs path (xs ++ Node.img src alt :: ys) st).2.logs := by
  rcases hsub : substitute_image fs (processNodes fs path xs st).2 path src alt
    with ⟨r, st1⟩
  rw [hsub] at hfail
  simp only at hfail
  subst hfail
  have hstep : processNodes fs path (Node.img src alt :: ys)
      (processNodes fs path xs st).2 =
      (Node.img src alt :: (processNodes fs path ys (warnFailState st1 src e)).1,
       (processNodes fs path ys (warnFailState st1 src e)).2) := by
    simp [processNodes, hext, hsub]
  rw [processNodes_append, hstep]
  constructor
  · rfl
  · exact processNodes_logs_mem fs path ys _ _
      (List.mem_append_right st1.logs (List.mem_singleton.mpr rfl))

/-- C4 witness: a good reference, then a reference to a missing file, then
another good reference. -/
theorem C4_per_reference_isolation_witness :
    (processNodes exFs "docs"
        ([Node.img "ok1.drawio" none] ++
          Node.img "missing.drawio" none :: [Node.img "ok2.drawio" none]) st0).1 =
      (processNodes exFs "docs" [Node.img "ok1.drawio" none] st0).1 ++
        Node.img "missing.drawio" none ::
          (processNodes exFs "docs" [Node.img "ok2.drawio" none]
            (warnFailState
              (substitute_image exFs
                (processNodes exFs "docs" [Node.img "ok1.drawio" none] st0).2
                "docs" "missing.drawio" none).2
              "missing.drawio" "failed to load docs/missing.drawio")).1 ∧
    (LogLevel.warning,
      "Failed to process diagram " ++ "missing.drawio" ++ ": " ++
        "failed to load docs/missing.drawio") ∈
      (processNodes exFs "docs"
        ([Node.img "ok1.drawio" none] ++
          Node.img "missing.drawio" none :: [Node.img "ok2.drawio" none]) st0).2.logs :=
  C4_per_reference_isolation exFs "docs" [Node.img "ok1.drawio" none]
    [Node.img "ok2.drawio" none] "missing.drawio" none st0
    "failed to load docs/missing.drawio" (by decide) rfl

/-! Helper lemmas relating node predicates to the rendered page text. -/

theorem isDiagramImg_render_contains (n : Node) (h : isDiagramImg n = true) :
    strContainsCI (renderNode n) ".drawio" = true := by
  cases n with
  | img src alt =>
    simp only [isDiagramImg] at h
    cases alt with
    | none =>
      simp only [renderNode]
      exact strContainsCI_append_left _ _ _ (strContainsCI_append_left _ _ _
        (strContainsCI_append_left _ _ _ (strContainsCI_append_right _ _ _ h)))
    | some a =>
      simp only [renderNode]
      exact strContainsCI_append_left _ _ _ (strContainsCI_append_left _ _ _
        (strContainsCI_append_left _ _ _ (strContainsCI_append_right _ _ _ h)))
  | script s => simp [isDiagramImg] at h
  | text s => simp [isDiagramImg] at h
  | raw html => simp [isDiagramImg] at h

theorem strContainsCI_concatStrs (pat : String) (f : Node → String) (ns : List Node)
    (n : Node) (hn : n ∈ ns) (h : strContainsCI (f n) pat = true) :
    strContainsCI (concatStrs (ns.map f)) pat = true := by
  induction ns with
  | nil => cases hn
  | cons m rest ih =>
    rcases List.mem_cons.mp hn with rfl | hmem
    · simpa [concatStrs] using strContainsCI_append_left (f n) (concatStrs (rest.map f)) pat h
    · simpa [concatStrs] using strContainsCI_append_right (f m) (concatStrs (rest.map f)) pat (ih hmem)

theorem render_contains_drawio (page : HtmlPage) (n : Node) (hn : n ∈ page.nodes)
    (h : isDiagramImg n = true) : strContainsCI (render page) ".drawio" = true := by
  have hc := strContainsCI_concatStrs ".drawio" renderNode page.nodes n hn
    (isDiagramImg_render_contains n h)
  by_cases hb : page.hasBody = true
  · simp only [render, hb, if_true]
    exact strContainsCI_append_left _ _ _ (strContainsCI_append_right _ _ _ hc)
  · simp only [Bool.not_eq_true] at hb
    simpa [render, hb] using hc

/-- C10: a page holding a diagram image but no `body` element is returned
verbatim: the script insertion raises on the missing body before any
substitution, the page-level handler logs the error, and the state apart from
the log (cache, read counter — hence every diagram reference) is untouched. -/
theorem C10_missing_body_page_unchanged (cfg : PluginConfig) (fs : FS)
    (package_dir : String) (page : HtmlPage) (file : PageFile) (st : PluginState)
    (n : Node) (hn : n ∈ page.nodes) (hdiag : isDiagramImg n = true)
    (hbody : page.hasBody = false) :
    on_post_page cfg fs package_dir page file st =
      (render page,
       { st with
          logs := st.logs ++
            [(LogLevel.error,
              "Error processing page content: NoneType object has no attribute append")] }) := by
  have hc := render_contains_drawio page n hn hdiag
  have hmemf : n ∈ page.nodes.filter isDiagramImg := List.mem_filter.mpr ⟨hn, hdiag⟩
  have hne : (page.nodes.filter isDiagramImg).isEmpty = false := by
    cases hfe : page.nodes.filter isDiagramImg with
    | nil => rw [hfe] at hmemf; cases hmemf
    | cons a l => rfl
  have herr : transformPage fs package_dir page file st =
      Except.error "NoneType object has no attribute append" := by
    simp [transformPage, hne, hbody]
  simp [on_post_page, hc, herr]

/-- C10 witness: a bodyless page with one valid diagram reference. -/
theorem C10_missing_body_page_unchanged_witness :
    on_post_page { file_extension := ".drawio" } exFs "/pkg" exPageNoBody exFile st0 =
      (render exPageNoBody,
       { st0 with
          logs := st0.logs ++
            [(LogLevel.error,
              "Error processing page content: NoneType object has no attribute append")] }) :=
  C10_missing_body_page_unchanged { file_extension := ".drawio" } exFs "/pkg"
    exPageNoBody exFile st0 (Node.img "a.drawio" none) (by decide) (by decide) rfl

end DrawioFile
